import Mathlib

/-!
Verification of the launch-configuration builder of the haros repository
(`src/haros/config_builder.py`).

The Python source is shallowly embedded: each Lean definition mirrors one
function or method of the source.  Mutable object state is made explicit:
the shared, aliased Python lists (the `parameters` list shared between a
scope and its children) live in an arena indexed by `paramsRef`, while
data that the source copies at construction time (`remaps`, `conditions`,
`_params`) is stored inline per scope.

Parts of the repository that the source imports from `haros.metamodel`
(RosName, the resource collections) are not present under `src/`; the
definitions modelling them carry a doc comment starting with
`Modelled from the spec:` and follow the specification text.
-/

namespace Haros

/-- Embeds `SourceCondition(expression, location)` from the metamodel: an
unresolvable conditional expression kept as data. -/
structure SourceCondition where
  expr : String
  loc : String
deriving DecidableEq

/-- A value stored in a condition list.  In the source these lists hold
`SourceCondition` objects; a literal Python `False` could also be appended
by `make_node` (line 105-106) if the dispatch loop ever passed one. -/
inductive CondV where
  | pyFalse
  | src (c : SourceCondition)
deriving DecidableEq

/-- The Python value returned by `ConfigurationBuilder._condition`
(config_builder.py lines 611-622): `True`, `False`, or a
`SourceCondition`. -/
inductive TagCond where
  | tru
  | fls
  | sym (c : SourceCondition)
deriving DecidableEq

/-- The Python exceptions that the builder code can raise. -/
inductive PyErr where
  | confError (msg : String)
  | substError (msg : String)
  | valueError (msg : String)
  | nameError
  | attrError (msg : String)
deriving DecidableEq

/-- Embeds `list.append(condition)` guarded by `if not condition is True`
(config_builder.py lines 85-86, 105-106, 130-131, 164-165). -/
def pushCond (cs : List CondV) : TagCond → List CondV
  | .tru => cs
  | .fls => cs ++ [.pyFalse]
  | .sym c => cs ++ [.src c]

/-! ### Condition recomputation for topics and services
(`LaunchScope._update_topic_conditions`, lines 355-368, and
`LaunchScope._update_service_conditions`, lines 370-384). -/

/-- The data of one link that the condition-update loops read:
`link.node.conditions` and `link.conditions`. -/
structure CLink where
  nodeConds : List CondV
  conds : List CondV
deriving DecidableEq

/-- One `for link in ...` loop of `_update_topic_conditions`:
if `link.node.conditions` is empty the accumulator is replaced by
`link.conditions` and the loop breaks; otherwise the node conditions and
then the link conditions are appended. -/
def condLoop : List CondV → List CLink → List CondV
  | acc, [] => acc
  | acc, l :: ls =>
    if l.nodeConds = [] then l.conds
    else condLoop (acc ++ l.nodeConds ++ l.conds) ls

/-- Embeds `LaunchScope._update_topic_conditions` (lines 355-368): the final value
of `topic.conditions`, scanning publishers first, then subscribers.  The
`break` in the publishers loop does not skip the subscribers loop. -/
def updateTopicConditions (pubs subs : List CLink) : List CondV :=
  condLoop (condLoop [] pubs) subs

/-- Embeds `LaunchScope._update_service_conditions` (lines 370-384): the server
link is handled by a plain `if`/`else`, then the clients loop runs with the
same break behaviour as for topics. -/
def updateServiceConditions (server : Option CLink) (clients : List CLink) :
    List CondV :=
  let acc := match server with
    | none => []
    | some l => if l.nodeConds = [] then l.conds else l.nodeConds ++ l.conds
  condLoop acc clients

/-! ### Tag dispatch (`ConfigurationBuilder._analyse_tree`, lines 474-486,
and `ConfigurationBuilder._condition`, lines 611-622). -/

/-- One child of a launch-tree node, as read by the dispatch loop: its tag
name, its text (used for `error` nodes), and its `(polarity, expression)`
conditional attribute. -/
structure TreeTag where
  tag : String
  text : String
  condition : Bool × String
deriving DecidableEq

/-- Outcome of running a piece of Python code that mutates state of type
`S`: normal return, or an exception raised with the mutations performed so
far kept (Python has no rollback). -/
inductive PyResult (S : Type) where
  | ok (s : S)
  | raised (e : PyErr) (s : S)

/-- The exception classes caught by the dispatch loop
(`except (ConfigurationError, SubstitutionError)`, line 485). -/
def catchable : PyErr → Bool
  | .confError _ => true
  | .substError _ => true
  | _ => false

/-- Embeds `e.value`, the diagnostic string appended to the error log
(line 486).  Only `ConfigurationError` and `SubstitutionError` values are
ever read, because only those are caught. -/
def errValue : PyErr → String
  | .confError m => m
  | .substError m => m
  | _ => ""

/-- Embeds `ConfigurationBuilder._condition` (lines 611-622).  `sub.resolve` is
called without `strict`, so an unresolvable expression yields `None`
(modelled as `none`).  In that case the source executes
`SourceCondition(condition[1], location = config.roslaunch[-1].location)`
— but `config` is an unbound name inside `_condition` (it is neither a
parameter, nor a local, nor a module global), so evaluating the `location`
argument raises `NameError` before any `SourceCondition` is built. -/
def conditionEval (resolve : String → Option Bool) (c : Bool × String) :
    Except PyErr TagCond :=
  match resolve c.2 with
  | none => .error .nameError
  | some v => if v = c.1 then .ok .tru else .ok .fls

/-- Embeds `ConfigurationBuilder._analyse_tree` (lines 474-486), parametrised by
the expression resolver and by the tag handler (the source dispatches via
`getattr(self, "_" + tag.tag + "_tag")`; the handler argument models that
lookup plus the handler body, returning `raised (.attrError _)` for an
unknown tag name).  State `S` stands for the builder, scope and
configuration state the handlers mutate.  Returns the final state and
error log, or the first uncaught exception. -/
def analyseTree {S : Type} (resolve : String → Option Bool)
    (handler : TreeTag → TagCond → S → PyResult S) :
    List TreeTag → S → List String → PyResult (S × List String)
  | [], s, errs => .ok (s, errs)
  | t :: ts, s, errs =>
    if t.tag = "error" then
      analyseTree resolve handler ts s (errs ++ [t.text])
    else
      match conditionEval resolve t.condition with
      | .error e =>
        if catchable e then analyseTree resolve handler ts s (errs ++ [errValue e])
        else .raised e (s, errs)
      | .ok .fls => analyseTree resolve handler ts s errs
      | .ok c =>
        match handler t c s with
        | .ok s' => analyseTree resolve handler ts s' errs
        | .raised e s' =>
          if catchable e then analyseTree resolve handler ts s' (errs ++ [errValue e])
          else .raised e (s', errs)

/-- A handler is tame when every exception it raises is one of the classes
the dispatch loop catches. -/
def handlerTame {S : Type} (handler : TreeTag → TagCond → S → PyResult S) : Prop :=
  ∀ t c s, match handler t c s with
  | .ok _ => True
  | .raised e _ => catchable e = true

/-! ### String primitives

Reducible models of the Python string operations the source uses, written
over the character list so that concrete witnesses evaluate inside the
kernel. -/

/-- Models Python `str.startswith`. -/
def strStartsWith (s p : String) : Bool :=
  s.toList.take p.toList.length == p.toList

/-- Models Python `str.endswith`. -/
def strEndsWith (s p : String) : Bool :=
  s.toList.reverse.take p.toList.length == p.toList.reverse

/-- Models the Python substring test `c in s` for a single character. -/
def strContains (s : String) (c : Char) : Bool := s.toList.contains c

/-- Models the Python slice `s[n:]`. -/
def strDrop (s : String) (n : Nat) : String := ⟨s.toList.drop n⟩

/-- Models Python `str.lower`. -/
def strToLower (s : String) : String := ⟨s.toList.map Char.toLower⟩

/-- Models Python `str.strip`. -/
def strTrim (s : String) : String :=
  ⟨((s.toList.dropWhile Char.isWhitespace).reverse.dropWhile
      Char.isWhitespace).reverse⟩

/-- Splits a character list on a separator character. -/
def splitOnChar (d : Char) : List Char → List (List Char)
  | [] => [[]]
  | c :: cs =>
    if c = d then [] :: splitOnChar d cs
    else
      match splitOnChar d cs with
      | [] => [[c]]
      | g :: gs => (c :: g) :: gs

/-- Reads a non-empty all-digit character list as a natural number. -/
def digitsVal? (cs : List Char) : Option Nat :=
  if ¬ cs = [] ∧ cs.all Char.isDigit then
    some (cs.foldl (fun a c => a * 10 + (c.toNat - 48)) 0)
  else none

/-- Approximation of the Python `int` constructor on strings (an external
builtin): an optional minus sign followed by digits. -/
def strToInt? (s : String) : Option Int :=
  match s.toList with
  | '-' :: rest => (digitsVal? rest).map (fun n => -(n : Int))
  | cs => (digitsVal? cs).map (fun n => (n : Int))

/-! ### Name resolution helpers -/

/-- Modelled from the spec: namespace concatenation used by the
metamodel's name resolver (not under `src/`): path segments are joined
with `/` (§3 ResolvedName, glossary). -/
def nsConcat (ns name : String) : String :=
  if strEndsWith ns "/" then ns ++ name else ns ++ "/" ++ name

/-- Modelled from the spec: `RosName.resolve` from `haros.metamodel` (not
under `src/`): "given a name, a current namespace, a private namespace,
and an optional remap table, produces the fully-qualified resolved name"
(§2).  A name starting with `/` is already absolute; a name starting with
the private marker `~` resolves against the private namespace (glossary);
any other name joins the current namespace. -/
def rosResolve (name ns pns : String) : String :=
  if strStartsWith name "/" then name
  else if strStartsWith name "~" then nsConcat pns (strDrop name 1)
  else nsConcat ns name

/-- Modelled from the spec: the remap table maps resolved source names to
resolved target names and is applied when a process resolves a
communication endpoint name (glossary `Remap`; §4.1 `declare_remap`). -/
def remapLookup (remaps : List (String × String)) (n : String) : String :=
  match remaps.find? (fun p => p.1 == n) with
  | some p => p.2
  | none => n

/-- Embeds `LaunchScope._ns_join` (lines 336-346), the "dumb version of
name resolution" used by the YAML-parameter unfolding. -/
def nsJoin (name ns : String) : String :=
  if strStartsWith name "~" || strStartsWith name "/" then name
  else if ns = "~" then "~" ++ name
  else if ns = "" then name
  else if strEndsWith ns "/" then ns ++ name
  else ns ++ "/" ++ name

/-! ### Topic and service lookup
(`LaunchScope._lookup_resource`, lines 248-265, and
`LaunchScope._make_topic_link`, lines 224-234). -/

/-- A Topic or Service entity: its as-given name, its fully resolved name
and its message type.  Modelled from the spec where the metamodel is
absent: entities are keyed by fully-resolved name (§3). -/
structure Resource where
  given : String
  full : String
  rtype : String
deriving DecidableEq

/-- Modelled from the spec: `collection.get(name)` of the metamodel's
resource collections (not under `src/`): each collection is keyed by
fully-resolved name and a name maps to at most one entity (§3). -/
def collectionGet (coll : List Resource) (name : String) : Option Resource :=
  coll.find? (fun r => r.full == name)

/-- Embeds `LaunchScope._lookup_resource` (lines 248-265).  A name without
a `?` wildcard is looked up by literal equality in the collection only
(the hints are not consulted on this path).  A name with a wildcard takes
the pattern-matching path — but the module never imports `re`, so the
first `re.match` call raises `NameError`; that call is reached as soon as
either the hints dictionary or the collection is non-empty.  Only with
both empty does the function fall through and return `None`
(the `candidate` variable, still unset). -/
def lookupResource (name ty : String) (coll : List Resource)
    (hints : List (String × Resource)) : Except PyErr (Option Resource) :=
  if strContains name '?' = false then .ok (collectionGet coll name)
  else
    match hints with
    | _ :: _ => .error .nameError
    | [] =>
      match coll with
      | _ :: _ => .error .nameError
      | [] => .ok none

/-- A `PubSubPrimitive` link: the owning process (by index), the linked
topic, the type used at the call site, the as-given name, the queue size
and the link's own condition list. -/
structure PubSubPrim where
  node : Nat
  topic : Resource
  ttype : String
  givenName : String
  queue : Nat
  conds : List CondV
deriving DecidableEq

/-- Embeds `LaunchScope._resolve_ns` (lines 348-353). -/
def resolveNs (scopeNs pns : String) (ns : String) : String :=
  if ns = "" then scopeNs
  else if ns = "~" then pns
  else rosResolve ns scopeNs pns

/-- Embeds the name computation of `_make_topic_link` (line 226):
`RosName(name, self._resolve_ns(ns), pns, self.node.remaps).full`. -/
def topicFullName (remaps : List (String × String)) (scopeNs pns name ns : String) :
    String :=
  remapLookup remaps (rosResolve name (resolveNs scopeNs pns ns) pns)

/-- Embeds `LaunchScope._make_topic_link` (lines 224-234): resolve the call
name through the namespace and the owning node's remaps, look the topic up,
create it if absent, add it to the configuration's topic collection if its
resolved name is not yet a key there, and return the new link.
`LaunchScope._make_service_link` (lines 236-246) is identical except for
the entity kind. -/
def makeTopicLink (nodeId : Nat) (remaps : List (String × String))
    (scopeNs pns : String) (coll : List Resource)
    (hints : List (String × Resource)) (name ns ty : String) (queue : Nat)
    (conds : List CondV) : Except PyErr (List Resource × PubSubPrim) :=
  let full := topicFullName remaps scopeNs pns name ns
  match lookupResource full ty coll hints with
  | .error e => .error e
  | .ok topicOpt =>
    let topic := match topicOpt with
      | some t => t
      | none => { given := name, full := full, rtype := ty }
    let coll' := if (collectionGet coll topic.full).isNone then coll ++ [topic] else coll
    .ok (coll', { node := nodeId, topic := topic, ttype := ty,
                  givenName := name, queue := queue, conds := conds })

/-! ### Python values and YAML flattening
(`LaunchScope._unfold`, lines 323-334). -/

/-- A Python value as handled by the parameter code: scalars, `None`,
lists, and nested string-keyed mappings.  Floating-point literals are kept
symbolically as their source text. -/
inductive PyVal where
  | s (v : String)
  | i (v : Int)
  | f (lit : String)
  | b (v : Bool)
  | pynone
  | pylist (vs : List PyVal)
  | dict (kvs : List (String × PyVal))

/-- Embeds the `isinstance(value, dict)` test. -/
def PyVal.isDict : PyVal → Bool
  | .dict _ => true
  | _ => false

/-- Embeds the `while stack` loop of `LaunchScope._unfold` (lines 325-333):
`stack.pop()` takes the most recently pushed entry (the head here), a
mapping pushes its entries (so they are later popped in reverse push
order), and a non-mapping leaf appends `(joined-name, value, name == key)`
to the result. -/
def unfoldLoop : List (String × String × PyVal) → List (String × PyVal × Bool) →
    List (String × PyVal × Bool)
  | [], res => res
  | (ns, key, PyVal.dict kvs) :: stack, res =>
    unfoldLoop ((kvs.reverse.map fun kv => (nsJoin key ns, kv.1, kv.2)) ++ stack) res
  | (ns, key, v) :: stack, res =>
    unfoldLoop stack (res ++ [(nsJoin key ns, v, nsJoin key ns == key)])
termination_by stack _ => ((stack.map fun e => sizeOf e.2.2).sum)
decreasing_by
  all_goals simp_wf
  · have hbound : ∀ l : List (String × PyVal),
        ((l.map fun kv => sizeOf kv.2).sum) < sizeOf l := by
      intro l
      induction l with
      | nil => simp
      | cons p r ih =>
        obtain ⟨k, w⟩ := p
        simp only [List.map_cons, List.sum_cons, List.cons.sizeOf_spec,
          Prod.mk.sizeOf_spec]
        omega
    have hcomp : ((fun e : String × String × PyVal => sizeOf e.2.2) ∘
        (fun kv : String × PyVal => (nsJoin key ns, kv.1, kv.2)))
        = fun kv : String × PyVal => sizeOf kv.2 := rfl
    have h := hbound kvs
    simp only [hcomp, List.sum_append, List.sum_reverse] at *
    omega
  · cases v <;> simp_arith

/-- Embeds `LaunchScope._unfold` (lines 323-334): flatten a (possibly
nested) parameter value into a list of `(joined name, leaf value,
name == key)` triples, starting from the stack `[("", name, value)]`. -/
def unfoldValue (name : String) (value : PyVal) : List (String × PyVal × Bool) :=
  unfoldLoop [("", name, value)] []

/-- Projection of an unfolded item to the data the flattening claim talks
about: the joined name and the leaf value. -/
def projNV (it : String × PyVal × Bool) : String × PyVal := (it.1, it.2.1)

mutual
/-- Reference function written from the spec's words for the flattening
claim (§4.2): the set of non-mapping leaves of a nested mapping, each
named by joining its key path (via `_ns_join`) under the root name.  To be
compared with `unfoldValue`. -/
def specLeaves (name : String) : PyVal → List (String × PyVal)
  | .dict kvs => specLeavesKvs name kvs
  | v => [(name, v)]
/-- Companion of `specLeaves` for the entry list of a mapping. -/
def specLeavesKvs (name : String) : List (String × PyVal) → List (String × PyVal)
  | [] => []
  | (k, v) :: r => specLeaves (nsJoin k name) v ++ specLeavesKvs name r
end

/-! ### Scopes and the configuration state
(`LaunchScope.__init__`, lines 59-71, and its methods). -/

/-- A launch-file parameter (metamodel `Parameter`, modelled from the spec
where absent from `src/`): as-given name, fully-resolved name, declared or
inferred type, value, node-scoped flag and condition list (§3). -/
structure Param where
  given : String
  full : String
  ptype : Option String
  value : PyVal
  nodeScope : Bool
  conditions : List CondV

/-- A `NodeInstance` (metamodel, modelled from the spec where absent from
`src/`): resolved name, remap table, launch arguments and condition list
(§3 ProcessInstance). -/
structure NodeInst where
  given : String
  full : String
  remaps : List (String × String)
  argv : String
  conditions : List CondV
deriving DecidableEq

/-- Embeds one `LaunchScope` object (lines 59-71).  The `parameters` list
is shared by reference between a scope and its children, so it lives in an
arena (`paramsRef` is the index); `remaps`, `_params` (here `pending`) and
`conditions` are copied at construction time and stored inline. -/
structure Scope where
  parentIdx : Option Nat
  launchFile : String
  ns : String
  nodeId : Option Nat
  remaps : List (String × String)
  paramsRef : Nat
  pending : List Param
  args : List (String × String)
  conditions : List CondV

/-- The mutable state reachable from a `LaunchScope`: all scope objects,
the configuration's node and parameter collections, and the arena of
shared `parameters` lists.  `deletedParams` stands for the
`resources.deleted_params` list that `remove_param` tries to append to. -/
structure BuildState where
  scopes : List Scope
  nodes : List NodeInst
  paramArena : List (List Param)
  cfgParams : List Param
  deletedParams : List String

/-- Placeholder scope for out-of-range indices (never used on the states
the theorems quantify over). -/
def defaultScope : Scope :=
  { parentIdx := none, launchFile := "", ns := "/", nodeId := none,
    remaps := [], paramsRef := 0, pending := [], args := [], conditions := [] }

/-- Placeholder node instance for out-of-range indices. -/
def defaultNode : NodeInst :=
  { given := "", full := "", remaps := [], argv := "", conditions := [] }

/-- Dereferences a scope index. -/
def getScope (st : BuildState) (i : Nat) : Scope := st.scopes.getD i defaultScope

/-- Writes back a mutated scope object. -/
def setScope (st : BuildState) (i : Nat) (sc : Scope) : BuildState :=
  { st with scopes := st.scopes.set i sc }

/-- Embeds the `private_ns` property (lines 73-75):
`self.node.rosname.full` when the scope owns a node, else the scope's
namespace. -/
def privateNs (st : BuildState) (sc : Scope) : String :=
  match sc.nodeId with
  | some i => (st.nodes.getD i defaultNode).full
  | none => sc.ns

/-- Embeds `LaunchScope._namespace` (lines 180-186).  The two-argument
`RosName.resolve(ns, self.namespace)` call is modelled with the spec's
default private namespace `/`. -/
def scopeNamespace (st : BuildState) (sc : Scope) (ns : String) (priv : Bool) :
    String :=
  let pns := privateNs st sc
  if ns = "" then (if priv then pns else sc.ns)
  else if priv then rosResolve ns pns pns
  else rosResolve ns sc.ns "/"

/-- Embeds a Python dict update `self.remaps[source] = target`. -/
def assocSet (m : List (String × String)) (k v : String) : List (String × String) :=
  if m.any (fun p => p.1 == k) then
    m.map (fun p => if p.1 == k then (k, v) else p)
  else m ++ [(k, v)]

/-- Embeds `LaunchScope.child` (lines 77-88) plus the `__init__` it calls:
the child gets an independent copy of the parent's remap table
(`dict(self.remaps)`), shares the parent's `parameters` list (same
`paramsRef`), copies the parent's `_params` staging list
(`list(parent._params)`), copies the condition list and appends the fork
condition if it is not `True`.  Returns the new state and the child's
index. -/
def scopeChild (st : BuildState) (sid : Nat) (ns : String) (condition : TagCond)
    (launch : Option String) (args : Option (List (String × String))) :
    BuildState × Nat :=
  let sc := getScope st sid
  let child : Scope :=
    { parentIdx := some sid
      launchFile := launch.getD sc.launchFile
      ns := scopeNamespace st sc ns false
      nodeId := none
      remaps := sc.remaps
      paramsRef := sc.paramsRef
      pending := sc.pending
      args := args.getD sc.args
      conditions := pushCond sc.conditions condition }
  ({ st with scopes := st.scopes ++ [child] }, st.scopes.length)

/-- Embeds `LaunchScope.remap` (lines 90-94): resolve both names against
the current namespace and private namespace and record the mapping in this
scope's own remap table. -/
def scopeRemap (st : BuildState) (sid : Nat) (source target : String) : BuildState :=
  let sc := getScope st sid
  let pns := privateNs st sc
  let s := rosResolve source sc.ns pns
  let t := rosResolve target sc.ns pns
  setScope st sid { sc with remaps := assocSet sc.remaps s t }

/-- Dereferences an arena slot (one shared `parameters` list). -/
def arenaGet (st : BuildState) (i : Nat) : List Param := st.paramArena.getD i []

/-- Appends to a shared `parameters` list in place. -/
def arenaAppend (st : BuildState) (i : Nat) (ps : List Param) : BuildState :=
  { st with paramArena := st.paramArena.set i (st.paramArena.getD i [] ++ ps) }

/-- Embeds the re-homing loop body of `make_node` (lines 116-121): a staged
parameter is re-resolved under the new node's private namespace and its
conditions extended with the instance conditions. -/
def rehomeParam (pns : String) (instConds : List CondV) (p : Param) : Param :=
  { given := p.given
    full := rosResolve p.given pns pns
    ptype := p.ptype
    value := p.value
    nodeScope := p.nodeScope
    conditions := p.conditions ++ instConds }

/-- Embeds `LaunchScope.make_node` (lines 96-123): build the instance name,
create and register the `NodeInstance`, open the node scope (whose
`_params` staging list is a copy of the caller's, not cleared), then
re-home every parameter staged so far in the caller and append the
re-homed copies to the shared `parameters` list.  Returns the new state
and the node scope's index. -/
def makeNode (st : BuildState) (sid : Nat) (tmplOwnName : String)
    (name ns : String) (argv : String) (condition : TagCond) :
    BuildState × Nat :=
  let sc := getScope st sid
  let nsR := scopeNamespace st sc ns false
  let nameR := if name = "" then tmplOwnName else name
  let full := rosResolve nameR nsR (privateNs st sc)
  let instConds := pushCond sc.conditions condition
  let inst : NodeInst :=
    { given := nameR, full := full, remaps := sc.remaps, argv := argv,
      conditions := instConds }
  let newScope : Scope :=
    { parentIdx := some sid
      launchFile := sc.launchFile
      ns := nsR
      nodeId := some st.nodes.length
      remaps := inst.remaps
      paramsRef := sc.paramsRef
      pending := sc.pending
      args := sc.args
      conditions := instConds }
  let st1 : BuildState := { st with nodes := st.nodes ++ [inst] }
  let st2 : BuildState := { st1 with scopes := st1.scopes ++ [newScope] }
  let st3 := arenaAppend st2 sc.paramsRef (sc.pending.map (rehomeParam full instConds))
  (st3, st.scopes.length)

/-! ### Parameter creation and deletion
(`LaunchScope.make_params`, lines 125-142, `LaunchScope._yaml_param`,
lines 305-321, and `LaunchScope.remove_param`, lines 168-178). -/

/-- Embeds the `bool` branch of `_convert_value` (lines 290-296), also
reached recursively from the untyped branch. -/
def convertBool (value : String) : Except PyErr PyVal :=
  let v := strTrim (strToLower value)
  if v = "true" ∨ v = "1" then .ok (.b true)
  else if v = "false" ∨ v = "0" then .ok (.b false)
  else .error (.valueError (v ++ " is not a bool type"))

/-- Approximation of the Python `int` constructor on strings (an external
builtin): an optional sign followed by digits. -/
def intParse (v : String) : Option Int := strToInt? v

/-- Approximation of the Python `float` constructor on strings (an
external builtin): an optional sign, digits with at most one dot.  The
numeric value is kept symbolically as the literal text. -/
def floatParse (v : String) : Option String :=
  let w := if strStartsWith v "-" || strStartsWith v "+" then strDrop v 1 else v
  match splitOnChar '.' w.toList with
  | [a] => if 0 < a.length ∧ a.all Char.isDigit then some v else none
  | [a, b] =>
    if 0 < (a ++ b).length ∧ a.all Char.isDigit ∧ b.all Char.isDigit
    then some v else none
  | _ => none

/-- Embeds `LaunchScope._convert_value` (lines 267-303), parametrised by
the external `yaml.load` (the YAML decoder is an external collaborator).
Raised `ValueError`s are converted to `ConfigurationError` by the caller
`_param_tag` (lines 559-562). -/
def convertValue (yload : String → Except PyErr PyVal) (value : String)
    (ptype : Option String) : Except PyErr PyVal :=
  match ptype with
  | none =>
    let numeric : Option PyVal :=
      if strContains value '.' then (floatParse value).map PyVal.f
      else (intParse value).map PyVal.i
    match numeric with
    | some v => .ok v
    | none =>
      let lval := strToLower value
      if lval = "true" ∨ lval = "false" then convertBool value
      else .ok (.s value)
  | some "str" => .ok (.s value)
  | some "string" => .ok (.s value)
  | some "int" =>
    match intParse value with
    | some n => .ok (.i n)
    | none => .error (.valueError ("invalid literal for int: " ++ value))
  | some "double" =>
    match floatParse value with
    | some l => .ok (.f l)
    | none => .error (.valueError ("could not convert string to float: " ++ value))
  | some "bool" => convertBool value
  | some "boolean" => convertBool value
  | some "yaml" => yload value
  | some t => .error (.valueError ("Unknown type " ++ t))

/-- Modelled from the spec: `Parameter.type_of` from `haros.metamodel`
(not under `src/`): the inferred type of a converted value (§4.2: numeric,
then boolean, else string; structured values are YAML). -/
def typeOf : PyVal → String
  | .i _ => "int"
  | .f _ => "double"
  | .b _ => "bool"
  | .s _ => "str"
  | _ => "yaml"

/-- Embeds the loop body of `_yaml_param` (lines 310-321): recompute the
independence flag from the joined name, resolve the name (a still-private
name goes under `/roslaunch`), and append the parameter either to the
shared `parameters` list or to the private staging list. -/
def yamlParamStep (pns : String) (nodeScope : Bool) (conditions : List CondV)
    (priv : Bool) (sid : Nat) (st : BuildState) (it : String × PyVal × Bool) :
    BuildState :=
  let n := it.1
  let independent := strStartsWith n "/" || strStartsWith n "~"
  let full :=
    if independent && strStartsWith n "~" then rosResolve n "/roslaunch" "/roslaunch"
    else rosResolve n pns pns
  let p : Param :=
    { given := n, full := full, ptype := none, value := it.2.1,
      nodeScope := nodeScope, conditions := conditions }
  if independent || !priv then arenaAppend st (getScope st sid).paramsRef [p]
  else
    let sc := getScope st sid
    setScope st sid { sc with pending := sc.pending ++ [p] }

/-- Embeds `LaunchScope._yaml_param` (lines 305-321): unfold the value and
emit one parameter per unfolded item. -/
def yamlParamS (st : BuildState) (sid : Nat) (name : String) (value : PyVal)
    (conditions : List CondV) (priv : Bool) : BuildState :=
  let sc := getScope st sid
  let priv' := priv && strStartsWith name "~"
  let pns := privateNs st sc
  let nodeScope := sc.nodeId.isSome
  (unfoldValue name value).foldl (yamlParamStep pns nodeScope conditions priv' sid) st

/-- Embeds `LaunchScope.make_params` (lines 125-142): convert the value,
append the tag condition, then either route nested/YAML values through
`_yaml_param`, stage a bare private parameter outside a node scope in
`_params`, or append to the shared `parameters` list.  The `is_private`
test of the metamodel's RosName is modelled from the spec as "the given
name starts with the private marker `~`" (glossary). -/
def makeParams (yload : String → Except PyErr PyVal) (st : BuildState) (sid : Nat)
    (name : String) (ptype : Option String) (value : Option String)
    (condition : TagCond) : Except PyErr BuildState :=
  let sc := getScope st sid
  let conv : Except PyErr (PyVal × Option String) :=
    match value with
    | none => .ok (PyVal.pynone, ptype)
    | some v =>
      match convertValue yload v ptype with
      | .error e => .error e
      | .ok cv => .ok (cv, some (typeOf cv))
  match conv with
  | .error e => .error e
  | .ok (pval, ptypeC) =>
    let conditions := pushCond sc.conditions condition
    if ptypeC = some "yaml" ∨ pval.isDict then
      .ok (yamlParamS st sid name pval conditions true)
    else
      let pns := privateNs st sc
      let p : Param :=
        { given := name, full := rosResolve name pns pns, ptype := ptypeC,
          value := pval, nodeScope := sc.nodeId.isSome, conditions := conditions }
      if sc.nodeId = none ∧ strStartsWith name "~" = true then
        .ok (setScope st sid { sc with pending := sc.pending ++ [p] })
      else
        .ok (arenaAppend st sc.paramsRef [p])

/-- Modelled from the spec: `configuration.parameters.get(name)` — the
parameter collection is keyed by fully-resolved name (§3). -/
def paramsGet (ps : List Param) (n : String) : Option Param :=
  ps.find? (fun p => p.full == n)

/-- Embeds the name resolution of `remove_param` (lines 170-171):
`ns = self._ns_join(ns or self.private_ns, self.private_ns)` followed by
`RosName.resolve(name, ns, "/rosparam")`. -/
def rnameOf (st : BuildState) (sid : Nat) (name ns : String) : String :=
  let sc := getScope st sid
  let pns := privateNs st sc
  let nsJ := nsJoin (if ns = "" then pns else ns) pns
  rosResolve name nsJ "/rosparam"

/-- Embeds `LaunchScope.remove_param` (lines 168-178): resolve the name,
raise `ConfigurationError` when the configuration's committed parameter
collection has no such key, return without any state change when the tag
condition is not `True` or the scope's condition list is non-empty, and
otherwise execute `self.resources.deleted_params.append(name)` — which
raises `AttributeError`, because `LaunchScope` defines no `resources`
attribute. -/
def removeParam (st : BuildState) (sid : Nat) (name ns : String)
    (condition : TagCond) : Except PyErr BuildState :=
  match paramsGet st.cfgParams (rnameOf st sid name ns) with
  | none => .error (.confError ("missing parameter: " ++ rnameOf st sid name ns))
  | some _ =>
    if ¬ condition = .tru ∨ ¬ (getScope st sid).conditions = [] then .ok st
    else .error (.attrError "LaunchScope object has no attribute resources")

/-- Total number of parameters held in the shared `parameters` lists and
the per-scope staging lists. -/
def stParamCount (st : BuildState) : Nat :=
  (st.paramArena.map List.length).sum + (st.scopes.map (fun sc => sc.pending.length)).sum

/-! ## Theorems -/

/-- Helper for the condition-update loops: if some link in the list has an
owning node with an empty condition list, the loop stops at the first such
link and returns that link's own condition list, whatever the accumulator
was when the loop started. -/
theorem condLoop_break (ls : List CLink) (l : CLink) (acc : List CondV)
    (h : ls.find? (fun k => decide (k.nodeConds = [])) = some l) :
    condLoop acc ls = l.conds := by
  induction ls generalizing acc with
  | nil => simp at h
  | cons a ls ih =>
    by_cases ha : a.nodeConds = []
    · rw [List.find?_cons_of_pos _ (by simpa using ha)] at h
      cases h
      simp [condLoop, ha]
    · rw [List.find?_cons_of_neg _ (by simpa using ha)] at h
      simp only [condLoop, if_neg ha]
      exact ih _ h

/-- C2 counterexample: a publisher link whose owning process has an empty
condition list and whose own condition list is empty, together with a
subscriber link whose owning process also has an empty condition list but
whose own condition list is non-empty.  The claim says the aggregate
becomes the unconditional link's own (empty) list and computation stops,
so the topic's condition list would be empty; the code only breaks out of
the publishers loop, then the subscribers loop overwrites the aggregate
with the subscriber's non-empty list. -/
theorem c2_counterexample :
    updateTopicConditions
      [{ nodeConds := [], conds := [] }]
      [{ nodeConds := [], conds := [.src ⟨"cond", "file.launch"⟩] }] ≠ [] := by
  decide

/-- C2 (amended): the short-circuit on a link with an unconditional owning
process applies per scanned category (publishers, then subscribers; server,
then clients), not to the whole recomputation: a later category still runs
and may replace or extend the aggregate.  Consequently the empty-list
consequent holds when the unconditional attachment is in the last-scanned
category, or when no later-category links exist: (1) if the first
subscriber link whose owning process has an empty condition list has an
empty condition list itself, the topic's condition list is empty; (2) the
same for a publisher link when there are no subscribers; (3) the same for
a client link of a service, whatever the server link is. -/
theorem c2_amended_conditions :
    (∀ (pubs subs : List CLink) (l : CLink),
       subs.find? (fun k => decide (k.nodeConds = [])) = some l → l.conds = [] →
       updateTopicConditions pubs subs = [])
  ∧ (∀ (pubs : List CLink) (l : CLink),
       pubs.find? (fun k => decide (k.nodeConds = [])) = some l → l.conds = [] →
       updateTopicConditions pubs [] = [])
  ∧ (∀ (server : Option CLink) (clients : List CLink) (l : CLink),
       clients.find? (fun k => decide (k.nodeConds = [])) = some l → l.conds = [] →
       updateServiceConditions server clients = []) := by
  refine ⟨?_, ?_, ?_⟩
  · intro pubs subs l h hc
    unfold updateTopicConditions
    rw [condLoop_break subs l _ h, hc]
  · intro pubs l h hc
    unfold updateTopicConditions
    rw [condLoop, condLoop_break pubs l _ h, hc]
  · intro server clients l h hc
    unfold updateServiceConditions
    rw [condLoop_break clients l _ h, hc]

/-- Witness for `c2_amended_conditions` at concrete inputs. -/
theorem c2_amended_conditions_witness :
    updateTopicConditions
      [{ nodeConds := [.src ⟨"c", "f"⟩], conds := [] }]
      [{ nodeConds := [], conds := [] }] = []
  ∧ updateTopicConditions [{ nodeConds := [], conds := [] }] [] = []
  ∧ updateServiceConditions
      (some { nodeConds := [.src ⟨"c", "f"⟩], conds := [.src ⟨"c", "f"⟩] })
      [{ nodeConds := [], conds := [] }] = [] :=
  ⟨c2_amended_conditions.1 _ _ { nodeConds := [], conds := [] } (by decide) rfl,
   c2_amended_conditions.2.1 _ { nodeConds := [], conds := [] } (by decide) rfl,
   c2_amended_conditions.2.2 _ _ { nodeConds := [], conds := [] } (by decide) rfl⟩

/-- C1: evaluating the code at the failing input.  For every tag whose
conditional expression the evaluator cannot resolve, the dispatch loop
does not assign a `Symbolic` condition: `_condition` raises `NameError`
(line 617 reads the unbound name `config`), `NameError` is not among the
exception classes caught at the dispatch loop, so the whole file's
processing aborts at that tag — no entity under the subtree is produced
and the remaining siblings are not processed. -/
theorem c1_unresolvable_condition_raises {S : Type}
    (resolve : String → Option Bool)
    (handler : TreeTag → TagCond → S → PyResult S)
    (t : TreeTag) (ts : List TreeTag) (s : S) (errs : List String)
    (htag : ¬ t.tag = "error") (hres : resolve t.condition.2 = none) :
    analyseTree resolve handler (t :: ts) s errs = .raised .nameError (s, errs) := by
  simp [analyseTree, htag, conditionEval, hres, catchable]

/-- Witness for `c1_unresolvable_condition_raises`: a `group` tag whose
`if` expression cannot be resolved, wrapping what would be a `node` tag;
the result is an uncaught `NameError`, not a symbolically-conditioned
process instance. -/
theorem c1_unresolvable_condition_raises_witness :
    analyseTree (S := Unit) (fun _ => none) (fun _ _ s => .ok s)
      [⟨"group", "", (true, "unresolved-arg")⟩, ⟨"node", "", (true, "1")⟩]
      () [] = .raised .nameError ((), []) :=
  c1_unresolvable_condition_raises (fun _ => none) (fun _ _ s => .ok s)
    ⟨"group", "", (true, "unresolved-arg")⟩ [⟨"node", "", (true, "1")⟩] () []
    (by decide) rfl

/-- C3: (1) an error child records its diagnostic and processing continues
without raising; (2) whenever every non-error tag's conditional expression
resolves (so the `NameError` path of `_condition` is not taken) and every
exception the handlers raise is a `ConfigurationError` or
`SubstitutionError`, the dispatch loop catches every raised exception,
appends its diagnostic to the running error log, and finishes the whole
list normally — one bad tag never aborts processing of the rest of the
file, and the pre-existing error log is preserved as a prefix. -/
theorem c3_dispatch_error_handling :
    (∀ (S : Type) (resolve : String → Option Bool)
       (handler : TreeTag → TagCond → S → PyResult S)
       (t : TreeTag) (ts : List TreeTag) (s : S) (errs : List String),
       t.tag = "error" →
       analyseTree resolve handler (t :: ts) s errs
         = analyseTree resolve handler ts s (errs ++ [t.text]))
  ∧ (∀ (S : Type) (resolve : String → Option Bool)
       (handler : TreeTag → TagCond → S → PyResult S)
       (tags : List TreeTag) (s : S) (errs : List String),
       (∀ t ∈ tags, ¬ t.tag = "error" → (resolve t.condition.2).isSome) →
       handlerTame handler →
       ∃ s' extra, analyseTree resolve handler tags s errs = .ok (s', errs ++ extra)) := by
  constructor
  · intro S resolve handler t ts s errs ht
    simp [analyseTree, ht]
  · intro S resolve handler tags
    induction tags with
    | nil => intro s errs _ _; exact ⟨s, [], by simp [analyseTree]⟩
    | cons t ts ih =>
      intro s errs hres htame
      by_cases ht : t.tag = "error"
      · obtain ⟨s', extra, hrec⟩ := ih s (errs ++ [t.text])
          (fun u hu => hres u (List.mem_cons_of_mem _ hu)) htame
        exact ⟨s', [t.text] ++ extra, by simp [analyseTree, ht, hrec]⟩
      · have hsome : (resolve t.condition.2).isSome :=
          hres t (List.mem_cons_self _ _) ht
        obtain ⟨v, hv⟩ := Option.isSome_iff_exists.mp hsome
        have hrest : ∀ u ∈ ts, ¬ u.tag = "error" → (resolve u.condition.2).isSome :=
          fun u hu => hres u (List.mem_cons_of_mem _ hu)
        by_cases hpol : v = t.condition.1
        · -- condition resolves to the include polarity: handler runs
          have htm := htame t .tru s
          cases hh : handler t .tru s with
          | ok s1 =>
            obtain ⟨s', extra, hrec⟩ := ih s1 errs hrest htame
            exact ⟨s', extra, by
              simp [analyseTree, ht, conditionEval, hv, hpol, hh, hrec]⟩
          | raised e s1 =>
            rw [hh] at htm
            obtain ⟨s', extra, hrec⟩ := ih s1 (errs ++ [errValue e]) hrest htame
            exact ⟨s', [errValue e] ++ extra, by
              simp [analyseTree, ht, conditionEval, hv, hpol, hh, htm, hrec]⟩
        · -- condition resolves to the opposite polarity: subtree skipped
          obtain ⟨s', extra, hrec⟩ := ih s errs hrest htame
          exact ⟨s', extra, by
            simp [analyseTree, ht, conditionEval, hv, hpol, hrec]⟩

/-- Witness for `c3_dispatch_error_handling`: a list with an error node, a
tag whose handler raises a `ConfigurationError` and a tag whose handler
succeeds is processed to the end, collecting the diagnostics. -/
theorem c3_dispatch_error_handling_witness :
    (analyseTree (S := Nat) (fun _ => some true)
       (fun _ _ s => .raised (.confError "bad tag") s)
       [⟨"error", "parse error", (true, "1")⟩] 0 []
     = analyseTree (fun _ => some true)
         (fun _ _ s => .raised (.confError "bad tag") s) [] 0 ["parse error"])
  ∧ ∃ s' extra,
      analyseTree (S := Nat) (fun _ => some true)
        (fun t _ s => if t.tag = "param" then .raised (.confError "bad tag") s
                      else .ok (s + 1))
        [⟨"param", "", (true, "1")⟩, ⟨"node", "", (true, "1")⟩] 0 []
      = .ok (s', [] ++ extra) :=
  ⟨c3_dispatch_error_handling.1 Nat (fun _ => some true)
     (fun _ _ s => .raised (.confError "bad tag") s)
     ⟨"error", "parse error", (true, "1")⟩ [] 0 [] rfl,
   c3_dispatch_error_handling.2 Nat (fun _ => some true)
     (fun t _ s => if t.tag = "param" then .raised (.confError "bad tag") s
                   else .ok (s + 1))
     [⟨"param", "", (true, "1")⟩, ⟨"node", "", (true, "1")⟩] 0 []
     (by intro t ht _; simp)
     (by intro t c s
         by_cases h : t.tag = "param" <;> simp [handlerTame, h, catchable])⟩

/-- Helper: `getD` of a one-element extension, below the old length. -/
theorem listGetD_append_lt {α : Type} (l : List α) (x d : α) (i : Nat)
    (h : i < l.length) : (l ++ [x]).getD i d = l.getD i d := by
  simp [List.getD_eq_getElem?_getD, List.getElem?_append_left h]

/-- Helper: `getD` of a one-element extension, at the old length. -/
theorem listGetD_append_self {α : Type} (l : List α) (x d : α) :
    (l ++ [x]).getD l.length d = x := by
  simp [List.getD_eq_getElem?_getD, List.getElem?_concat_length]

/-- Helper: `getD` after `set` at a different index. -/
theorem listGetD_set_ne {α : Type} (l : List α) (x d : α) (i j : Nat)
    (h : ¬ i = j) : (l.set i x).getD j d = l.getD j d := by
  simp [List.getD_eq_getElem?_getD, List.getElem?_set_ne h]

/-- Helper: `getD` after `set` at the same, valid index. -/
theorem listGetD_set_self {α : Type} (l : List α) (x d : α) (i : Nat)
    (h : i < l.length) : (l.set i x).getD i d = x := by
  simp [List.getD_eq_getElem?_getD, List.getElem?_set_self, h]

/-- Helper: effect of a `set` at a valid index on a mapped sum. -/
theorem sum_map_set {α : Type} (f : α → Nat) (l : List α) (i : Nat) (x d : α)
    (h : i < l.length) :
    ((l.set i x).map f).sum + f (l.getD i d) = (l.map f).sum + f x := by
  induction l generalizing i with
  | nil => simp at h
  | cons a t ih =>
    cases i with
    | zero => simp [List.set]; omega
    | succ n =>
      have hn : n < t.length := by simpa using h
      have := ih n hn
      simp only [List.set, List.map_cons, List.sum_cons, List.getD_cons_succ]
      omega

/-- Helper: looking a name up in an extended collection whose old part
does not contain it. -/
theorem collectionGet_append_singleton (coll : List Resource) (t : Resource)
    (n : String) (h : collectionGet coll n = none) :
    collectionGet (coll ++ [t]) n = if (t.full == n) = true then some t else none := by
  unfold collectionGet at *
  simp only [List.find?_append, h, Option.none_orElse, List.find?]
  cases hb : t.full == n <;> simp [hb]

/-- Helper: a collection that did not contain a name holds exactly one
entity with that name after one is appended. -/
theorem countName_one (coll : List Resource) (t : Resource) (n : String)
    (h : collectionGet coll n = none) (ht : (t.full == n) = true) :
    ((coll ++ [t]).filter (fun r => r.full == n)).length = 1 := by
  have hall := List.find?_eq_none.mp h
  have hnil : coll.filter (fun r => r.full == n) = [] := by
    rw [List.filter_eq_nil_iff]
    intro a ha
    simpa using hall a ha
  simp [List.filter_append, hnil, ht]

/-- C8: evaluating the code at the failing input.  Entity lookup for a
name containing the `?` wildcard marker does not compile a pattern and
scan the hints and the collection: the module never imports `re`, so the
first `re.match` call raises `NameError` — reached as soon as the hints
(first conjunct: non-empty collection; second conjunct: non-empty hints)
give the loops anything to iterate over.  The literal-equality path for a
name without a wildcard (third conjunct) works, but consults only the
already-created entities, not the hints. -/
theorem c8_wildcard_lookup_raises_nameerror :
    lookupResource "/ns/?/cmd" "pkg/Type"
      [{ given := "cmd", full := "/ns/a/cmd", rtype := "pkg/Type" }] []
      = .error .nameError
  ∧ lookupResource "/ns/?/cmd" "pkg/Type" []
      [("/ns/a/cmd", { given := "cmd", full := "/ns/a/cmd", rtype := "pkg/Type" })]
      = .error .nameError
  ∧ lookupResource "/ns/a/cmd" "pkg/Type"
      [{ given := "cmd", full := "/ns/a/cmd", rtype := "pkg/Type" }] []
      = .ok (some { given := "cmd", full := "/ns/a/cmd", rtype := "pkg/Type" }) := by
  refine ⟨?_, ?_, ?_⟩ <;> rfl

/-- C4: topics are created at most once per fully-resolved name.  With a
wildcard-free resolved name absent from the collection, the first
reference creates the topic and adds it to the collection; a second
reference to the same resolved name (possibly from another process and
with another type) finds the existing entity, adds nothing, and returns a
link to the existing entity — the collection ends with exactly one entity
under that name and the two links share it. -/
theorem c4_topic_created_once (coll : List Resource) (n1 n2 : Nat)
    (remaps : List (String × String)) (scopeNs pns name ns ty1 ty2 : String)
    (q1 q2 : Nat) (cs1 cs2 : List CondV)
    (hw : strContains (topicFullName remaps scopeNs pns name ns) '?' = false)
    (habs : collectionGet coll (topicFullName remaps scopeNs pns name ns) = none) :
    ∃ t l1 l2,
      makeTopicLink n1 remaps scopeNs pns coll [] name ns ty1 q1 cs1
        = .ok (coll ++ [t], l1)
      ∧ t.full = topicFullName remaps scopeNs pns name ns
      ∧ l1.topic = t ∧ l1.node = n1
      ∧ makeTopicLink n2 remaps scopeNs pns (coll ++ [t]) [] name ns ty2 q2 cs2
          = .ok (coll ++ [t], l2)
      ∧ l2.topic = t ∧ l2.node = n2
      ∧ ((coll ++ [t]).filter (fun r => r.full == t.full)).length = 1 := by
  set F := topicFullName remaps scopeNs pns name ns with hF
  refine ⟨{ given := name, full := F, rtype := ty1 },
    { node := n1, topic := { given := name, full := F, rtype := ty1 }, ttype := ty1,
      givenName := name, queue := q1, conds := cs1 },
    { node := n2, topic := { given := name, full := F, rtype := ty1 }, ttype := ty2,
      givenName := name, queue := q2, conds := cs2 },
    ?_, rfl, rfl, rfl, ?_, rfl, rfl, ?_⟩
  · simp [makeTopicLink, lookupResource, hw, habs, ← hF]
  · have hget2 : collectionGet (coll ++ [{ given := name, full := F, rtype := ty1 }]) F
        = some { given := name, full := F, rtype := ty1 } := by
      rw [collectionGet_append_singleton _ _ _ habs]
      simp
    simp [makeTopicLink, lookupResource, hw, hget2, ← hF]
  · exact countName_one coll _ F habs (by simp)

/-- Witness for `c4_topic_created_once`: two processes referencing
`/chatter` with no remaps yield one topic and two links to it. -/
theorem c4_topic_created_once_witness :
    ∃ t l1 l2,
      makeTopicLink 0 [] "/" "/" [] [] "chatter" "" "pkg/T1" 10 []
        = .ok (([] : List Resource) ++ [t], l1)
      ∧ t.full = topicFullName [] "/" "/" "chatter" ""
      ∧ l1.topic = t ∧ l1.node = 0
      ∧ makeTopicLink 1 [] "/" "/" (([] : List Resource) ++ [t]) [] "chatter" "" "pkg/T1" 5 []
          = .ok (([] : List Resource) ++ [t], l2)
      ∧ l2.topic = t ∧ l2.node = 1
      ∧ ((([] : List Resource) ++ [t]).filter (fun r => r.full == t.full)).length = 1 :=
  c4_topic_created_once [] 0 1 [] "/" "/" "chatter" "" "pkg/T1" "pkg/T1" 10 5 [] []
    rfl rfl

/-- Helper: joining under the empty namespace returns the name. -/
theorem nsJoin_empty (n : String) : nsJoin n "" = n := by
  unfold nsJoin
  split
  · rfl
  · simp

/-- Helper: `specLeavesKvs` as a flatten of per-entry leaves. -/
theorem specLeavesKvs_eq_flatten (nm : String) (kvs : List (String × PyVal)) :
    specLeavesKvs nm kvs
      = (kvs.map (fun kv => specLeaves (nsJoin kv.1 nm) kv.2)).flatten := by
  induction kvs with
  | nil => simp [specLeavesKvs]
  | cons kv r ih =>
    obtain ⟨k, v⟩ := kv
    simp [specLeavesKvs, ih]

/-- Helper: the stack machine of `_unfold` emits, up to order, exactly the
leaves of everything on the stack, appended to the result so far. -/
theorem unfoldLoop_perm (stack : List (String × String × PyVal))
    (res : List (String × PyVal × Bool)) :
    ((unfoldLoop stack res).map projNV).Perm
      (res.map projNV
        ++ (stack.map (fun e => specLeaves (nsJoin e.2.1 e.1) e.2.2)).flatten) := by
  induction stack, res using unfoldLoop.induct with
  | case1 res =>
    rw [unfoldLoop]
    simp
  | case2 ns key kvs stack res ih =>
    rw [unfoldLoop]
    refine ih.trans ?_
    have hmap : ((kvs.reverse.map fun kv => (nsJoin key ns, kv.1, kv.2)).map
        (fun e => specLeaves (nsJoin e.2.1 e.1) e.2.2))
        = ((kvs.map fun kv => specLeaves (nsJoin kv.1 (nsJoin key ns)) kv.2).reverse) := by
      rw [← List.map_reverse, List.map_map]
      rfl
    simp only [List.map_append, List.flatten_append, hmap, List.map_cons,
      List.flatten_cons]
    refine List.Perm.append_left _ (List.Perm.append_right _ ?_)
    have h2 : ((kvs.map fun kv => specLeaves (nsJoin kv.1 (nsJoin key ns)) kv.2)).flatten
        = specLeaves (nsJoin key ns) (PyVal.dict kvs) := by
      rw [← specLeavesKvs_eq_flatten]
      simp [specLeaves]
    exact h2 ▸ (List.reverse_perm _).flatten
  | case3 ns key v stack res hv ih =>
    rw [unfoldLoop]
    · refine ih.trans ?_
      have hleaf : specLeaves (nsJoin key ns) v = [(nsJoin key ns, v)] := by
        cases v
        case dict kvs => exact (hv kvs rfl).elim
        all_goals simp [specLeaves]
      simp only [List.map_append, List.map_cons, List.map_nil, List.flatten_cons,
        hleaf, projNV, List.append_assoc]
      exact List.Perm.refl _
    · exact hv

/-- Helper: every item the stack machine emits carries a non-mapping
value. -/
theorem unfoldLoop_nodict (stack : List (String × String × PyVal))
    (res : List (String × PyVal × Bool))
    (hres : ∀ it ∈ res, it.2.1.isDict = false) :
    ∀ it ∈ unfoldLoop stack res, it.2.1.isDict = false := by
  induction stack, res using unfoldLoop.induct with
  | case1 res => simpa [unfoldLoop] using hres
  | case2 ns key kvs stack res ih =>
    rw [unfoldLoop]
    exact ih hres
  | case3 ns key v stack res hv ih =>
    rw [unfoldLoop]
    · refine ih ?_
      intro it hit
      rcases List.mem_append.mp hit with h | h
      · exact hres it h
      · have : it = (nsJoin key ns, v, nsJoin key ns == key) := by simpa using h
        subst this
        cases v
        case dict kvs => exact (hv kvs rfl).elim
        all_goals rfl
    · exact hv

/-- Helper: appending one parameter to a valid arena slot adds one to the
total parameter count and changes no state geometry. -/
theorem arenaAppend_one_count (st : BuildState) (i : Nat) (p : Param)
    (h : i < st.paramArena.length) :
    (arenaAppend st i [p]).scopes = st.scopes
  ∧ (arenaAppend st i [p]).paramArena.length = st.paramArena.length
  ∧ stParamCount (arenaAppend st i [p]) = stParamCount st + 1 := by
  refine ⟨rfl, by simp [arenaAppend], ?_⟩
  unfold stParamCount arenaAppend
  have := sum_map_set List.length st.paramArena i
    (st.paramArena.getD i [] ++ [p]) [] h
  simp only [List.length_append, List.length_cons, List.length_nil] at this
  simp only []
  omega

/-- Helper: staging one parameter in a valid scope adds one to the total
parameter count and changes no state geometry. -/
theorem setScope_pending_count (st : BuildState) (sid : Nat) (p : Param)
    (h : sid < st.scopes.length) :
    (setScope st sid
        { getScope st sid with pending := (getScope st sid).pending ++ [p] }).scopes.length
      = st.scopes.length
  ∧ (setScope st sid
        { getScope st sid with pending := (getScope st sid).pending ++ [p] }).paramArena
      = st.paramArena
  ∧ (getScope (setScope st sid
        { getScope st sid with pending := (getScope st sid).pending ++ [p] }) sid).paramsRef
      = (getScope st sid).paramsRef
  ∧ stParamCount (setScope st sid
        { getScope st sid with pending := (getScope st sid).pending ++ [p] })
      = stParamCount st + 1 := by
  refine ⟨by simp [setScope], rfl, ?_, ?_⟩
  · unfold getScope setScope
    rw [listGetD_set_self _ _ _ _ h]
  · unfold stParamCount setScope getScope
    have := sum_map_set (fun sc => sc.pending.length) st.scopes sid
      { getScope st sid with pending := (getScope st sid).pending ++ [p] }
      defaultScope h
    simp only [List.length_append, List.length_cons, List.length_nil] at this
    unfold getScope at this
    simp only []
    omega

/-- Helper: one `_yaml_param` loop iteration emits exactly one parameter
and preserves the geometry the iteration needs. -/
theorem yamlParamStep_count (pns : String) (nsc : Bool) (cs : List CondV)
    (priv : Bool) (sid : Nat) (st : BuildState) (it : String × PyVal × Bool)
    (h1 : sid < st.scopes.length)
    (h2 : (getScope st sid).paramsRef < st.paramArena.length) :
    (yamlParamStep pns nsc cs priv sid st it).scopes.length = st.scopes.length
  ∧ (yamlParamStep pns nsc cs priv sid st it).paramArena.length
      = st.paramArena.length
  ∧ (getScope (yamlParamStep pns nsc cs priv sid st it) sid).paramsRef
      = (getScope st sid).paramsRef
  ∧ stParamCount (yamlParamStep pns nsc cs priv sid st it)
      = stParamCount st + 1 := by
  unfold yamlParamStep
  by_cases hc : ((strStartsWith it.1 "/" || strStartsWith it.1 "~") || !priv) = true
  · simp only [hc, if_pos]
    exact ⟨rfl, by simp [arenaAppend], rfl,
      (arenaAppend_one_count st (getScope st sid).paramsRef _ h2).2.2⟩
  · simp only [hc, if_neg, Bool.false_eq_true, not_false_eq_true]
    exact ⟨(setScope_pending_count st sid _ h1).1, rfl,
      (setScope_pending_count st sid _ h1).2.2.1,
      (setScope_pending_count st sid _ h1).2.2.2⟩

/-- Helper: the `_yaml_param` loop emits one parameter per unfolded
item. -/
theorem yamlParamFold_count (pns : String) (nsc : Bool) (cs : List CondV)
    (priv : Bool) (sid : Nat) (items : List (String × PyVal × Bool)) :
    ∀ (st : BuildState), sid < st.scopes.length →
    (getScope st sid).paramsRef < st.paramArena.length →
    stParamCount (items.foldl (yamlParamStep pns nsc cs priv sid) st)
      = stParamCount st + items.length := by
  induction items with
  | nil => intro st _ _; simp
  | cons it rest ih =>
    intro st h1 h2
    obtain ⟨g1, g2, g3, g4⟩ := yamlParamStep_count pns nsc cs priv sid st it h1 h2
    simp only [List.foldl_cons, List.length_cons]
    rw [ih _ (by rw [g1]; exact h1) (by rw [g3, g2]; exact h2), g4]
    omega

/-- C6: flattening a nested-mapping parameter value emits exactly one
parameter per non-mapping leaf and none for intermediate mapping keys:
(1) the joined names and leaf values produced by `_unfold` are, as a
multiset, exactly the leaves of the nested value, each named by joining
its key path (via `_ns_join`, i.e. with `/` for ordinary keys) under the
root name; (2) every emitted item carries a non-mapping value; (3) the
`_yaml_param` loop creates exactly one `Parameter` per emitted item. -/
theorem c6_yaml_flattening :
    (∀ (name : String) (value : PyVal),
       ((unfoldValue name value).map projNV).Perm (specLeaves name value))
  ∧ (∀ (name : String) (value : PyVal),
       (unfoldValue name value).all (fun it => !it.2.1.isDict) = true)
  ∧ (∀ (st : BuildState) (sid : Nat) (name : String) (value : PyVal)
       (conds : List CondV) (priv : Bool),
       sid < st.scopes.length →
       (getScope st sid).paramsRef < st.paramArena.length →
       stParamCount (yamlParamS st sid name value conds priv)
         = stParamCount st + (unfoldValue name value).length) := by
  refine ⟨?_, ?_, ?_⟩
  · intro name value
    have h := unfoldLoop_perm [("", name, value)] []
    refine h.trans ?_
    simp [nsJoin_empty]
  · intro name value
    rw [List.all_eq_true]
    intro it hit
    have := unfoldLoop_nodict [("", name, value)] [] (by simp) it hit
    simp [this]
  · intro st sid name value conds priv h1 h2
    unfold yamlParamS
    exact yamlParamFold_count _ _ _ _ sid (unfoldValue name value) st h1 h2

/-- Witness for `c6_yaml_flattening` on a depth-2 nested mapping. -/
theorem c6_yaml_flattening_witness :
    ((unfoldValue "a" (.dict [("b", .i 1), ("c", .dict [("d", .s "x")])])).map
        projNV).Perm
      (specLeaves "a" (.dict [("b", .i 1), ("c", .dict [("d", .s "x")])]))
  ∧ (unfoldValue "a" (.dict [("b", .i 1), ("c", .dict [("d", .s "x")])])).all
      (fun it => !it.2.1.isDict) = true
  ∧ stParamCount
      (yamlParamS { scopes := [defaultScope], nodes := [], paramArena := [[]],
                    cfgParams := [], deletedParams := [] } 0 "a"
        (.dict [("b", .i 1), ("c", .dict [("d", .s "x")])]) [] true)
      = stParamCount { scopes := [defaultScope], nodes := [], paramArena := [[]],
                       cfgParams := [], deletedParams := [] }
        + (unfoldValue "a" (.dict [("b", .i 1), ("c", .dict [("d", .s "x")])])).length :=
  ⟨c6_yaml_flattening.1 "a" (.dict [("b", .i 1), ("c", .dict [("d", .s "x")])]),
   c6_yaml_flattening.2.1 "a" (.dict [("b", .i 1), ("c", .dict [("d", .s "x")])]),
   c6_yaml_flattening.2.2
     { scopes := [defaultScope], nodes := [], paramArena := [[]],
       cfgParams := [], deletedParams := [] } 0 "a"
     (.dict [("b", .i 1), ("c", .dict [("d", .s "x")])]) [] true
     (by decide) (by decide)⟩

/-- Helper: forking a child leaves every existing scope unchanged. -/
theorem getScope_child_out (st : BuildState) (sid : Nat) (ns : String)
    (c : TagCond) (launch : Option String)
    (args : Option (List (String × String))) (j : Nat)
    (hj : j < st.scopes.length) :
    getScope (scopeChild st sid ns c launch args).1 j = getScope st j := by
  unfold scopeChild getScope
  exact listGetD_append_lt _ _ _ _ hj

/-- Helper: the scope object a fork creates. -/
theorem getScope_child_self (st : BuildState) (sid : Nat) (ns : String)
    (c : TagCond) (launch : Option String)
    (args : Option (List (String × String))) :
    getScope (scopeChild st sid ns c launch args).1
        (scopeChild st sid ns c launch args).2
      = { parentIdx := some sid
          launchFile := launch.getD (getScope st sid).launchFile
          ns := scopeNamespace st (getScope st sid) ns false
          nodeId := none
          remaps := (getScope st sid).remaps
          paramsRef := (getScope st sid).paramsRef
          pending := (getScope st sid).pending
          args := args.getD (getScope st sid).args
          conditions := pushCond (getScope st sid).conditions c } := by
  unfold scopeChild getScope
  exact listGetD_append_self _ _ _

/-- Helper: a fork adds exactly one scope. -/
theorem scopeChild_length (st : BuildState) (sid : Nat) (ns : String)
    (c : TagCond) (launch : Option String)
    (args : Option (List (String × String))) :
    (scopeChild st sid ns c launch args).1.scopes.length
      = st.scopes.length + 1 := by
  unfold scopeChild
  simp

/-- Helper: a remap declared in one scope leaves every other scope
unchanged. -/
theorem getScope_remap_out (st : BuildState) (sid : Nat) (src tgt : String)
    (j : Nat) (hj : ¬ sid = j) :
    getScope (scopeRemap st sid src tgt) j = getScope st j := by
  unfold scopeRemap setScope getScope
  exact listGetD_set_ne _ _ _ _ _ hj

/-- Helper: the scope object after declaring a remap in it. -/
theorem getScope_remap_self (st : BuildState) (sid : Nat) (src tgt : String)
    (h : sid < st.scopes.length) :
    getScope (scopeRemap st sid src tgt) sid
      = { getScope st sid with
          remaps := assocSet (getScope st sid).remaps
            (rosResolve src (getScope st sid).ns
              (privateNs st (getScope st sid)))
            (rosResolve tgt (getScope st sid).ns
              (privateNs st (getScope st sid))) } := by
  unfold scopeRemap setScope getScope
  exact listGetD_set_self _ _ _ _ h

/-- Helper: declaring a remap does not change the number of scopes. -/
theorem scopeRemap_length (st : BuildState) (sid : Nat) (src tgt : String) :
    (scopeRemap st sid src tgt).scopes.length = st.scopes.length := by
  unfold scopeRemap setScope
  simp

/-- C5: forking a child scope copies the parent's remap table, so a remap
declared inside one fork is invisible in the parent and in sibling forks,
whether those siblings were created before or after the fork (or even
after the remap itself).  Three siblings are forked from the parent, the
remap is declared in the second, and a fourth sibling is forked
afterwards: the parent and the first, third and fourth siblings keep the
parent's original table, while the second sibling's table is exactly the
original table plus the new mapping. -/
theorem c5_remap_isolation (st : BuildState) (p : Nat)
    (ns1 ns2 ns3 ns4 : String) (cond : TagCond) (src tgt : String)
    (hp : p < st.scopes.length) :
    (getScope (scopeChild (scopeRemap
          (scopeChild (scopeChild (scopeChild st p ns1 cond none none).1
            p ns2 cond none none).1 p ns3 cond none none).1
          (scopeChild st p ns1 cond none none).1.scopes.length src tgt)
        p ns4 cond none none).1 p).remaps = (getScope st p).remaps
  ∧ (getScope (scopeChild (scopeRemap
          (scopeChild (scopeChild (scopeChild st p ns1 cond none none).1
            p ns2 cond none none).1 p ns3 cond none none).1
          (scopeChild st p ns1 cond none none).1.scopes.length src tgt)
        p ns4 cond none none).1 st.scopes.length).remaps
      = (getScope st p).remaps
  ∧ (getScope (scopeChild (scopeRemap
          (scopeChild (scopeChild (scopeChild st p ns1 cond none none).1
            p ns2 cond none none).1 p ns3 cond none none).1
          (scopeChild st p ns1 cond none none).1.scopes.length src tgt)
        p ns4 cond none none).1 (st.scopes.length + 2)).remaps
      = (getScope st p).remaps
  ∧ (getScope (scopeChild (scopeRemap
          (scopeChild (scopeChild (scopeChild st p ns1 cond none none).1
            p ns2 cond none none).1 p ns3 cond none none).1
          (scopeChild st p ns1 cond none none).1.scopes.length src tgt)
        p ns4 cond none none).1 (st.scopes.length + 3)).remaps
      = (getScope st p).remaps
  ∧ (getScope (scopeChild (scopeRemap
          (scopeChild (scopeChild (scopeChild st p ns1 cond none none).1
            p ns2 cond none none).1 p ns3 cond none none).1
          (scopeChild st p ns1 cond none none).1.scopes.length src tgt)
        p ns4 cond none none).1 (st.scopes.length + 1)).remaps
      = assocSet (getScope st p).remaps
          (rosResolve src (scopeNamespace (scopeChild st p ns1 cond none none).1
            (getScope (scopeChild st p ns1 cond none none).1 p) ns2 false)
            (scopeNamespace (scopeChild st p ns1 cond none none).1
              (getScope (scopeChild st p ns1 cond none none).1 p) ns2 false))
          (rosResolve tgt (scopeNamespace (scopeChild st p ns1 cond none none).1
            (getScope (scopeChild st p ns1 cond none none).1 p) ns2 false)
            (scopeNamespace (scopeChild st p ns1 cond none none).1
              (getScope (scopeChild st p ns1 cond none none).1 p) ns2 false)) := by
  set L := st.scopes.length with hLdef
  have hf1 : (scopeChild st p ns1 cond none none).2 = L := rfl
  set st1 := (scopeChild st p ns1 cond none none).1 with hst1
  have hL1 : st1.scopes.length = L + 1 := scopeChild_length st p ns1 cond none none
  set st2 := (scopeChild st1 p ns2 cond none none).1 with hst2
  have hL2 : st2.scopes.length = L + 2 := by
    rw [scopeChild_length st1 p ns2 cond none none, hL1]
  have hc2 : (scopeChild st1 p ns2 cond none none).2 = L + 1 := by
    show st1.scopes.length = L + 1
    exact hL1
  set st3 := (scopeChild st2 p ns3 cond none none).1 with hst3
  have hL3 : st3.scopes.length = L + 3 := by
    rw [scopeChild_length st2 p ns3 cond none none, hL2]
  set st4 := scopeRemap st3 st1.scopes.length src tgt with hst4
  have hL4 : st4.scopes.length = L + 3 := by
    rw [hst4, scopeRemap_length, hL3]
  have hp1 : p < st1.scopes.length := by omega
  have hp2 : p < st2.scopes.length := by omega
  have hp3 : p < st3.scopes.length := by omega
  have hp4 : p < st4.scopes.length := by omega
  -- the base scopes, read back through each step
  have hb1 : getScope st1 p = getScope st p := getScope_child_out st p ns1 cond none none p hp
  have hb2 : getScope st2 p = getScope st p := by
    rw [hst2, getScope_child_out st1 p ns2 cond none none p hp1, hb1]
  have hb3 : getScope st3 p = getScope st p := by
    rw [hst3, getScope_child_out st2 p ns3 cond none none p hp2, hb2]
  have hne : ¬ st1.scopes.length = p := by omega
  have hb4 : getScope st4 p = getScope st p := by
    rw [hst4, getScope_remap_out st3 st1.scopes.length src tgt p hne, hb3]
  refine ⟨?_, ?_, ?_, ?_, ?_⟩
  · rw [getScope_child_out st4 p ns4 cond none none p hp4, hb4]
  · -- the first sibling, forked before the remap
    have h0 : L < st4.scopes.length := by omega
    rw [getScope_child_out st4 p ns4 cond none none L h0, hst4,
      getScope_remap_out st3 st1.scopes.length src tgt L (by omega), hst3,
      getScope_child_out st2 p ns3 cond none none L (by omega), hst2,
      getScope_child_out st1 p ns2 cond none none L (by omega)]
    have := getScope_child_self st p ns1 cond none none
    rw [hf1] at this
    rw [hst1, this]
  · -- the third sibling, forked after the second but before the remap
    have h0 : L + 2 < st4.scopes.length := by omega
    rw [getScope_child_out st4 p ns4 cond none none (L + 2) h0, hst4,
      getScope_remap_out st3 st1.scopes.length src tgt (L + 2) (by omega)]
    have := getScope_child_self st2 p ns3 cond none none
    have hc3 : (scopeChild st2 p ns3 cond none none).2 = L + 2 := by
      show st2.scopes.length = L + 2
      exact hL2
    rw [hc3] at this
    rw [hst3, this]
    simp only []
    rw [hb2]
  · -- the fourth sibling, forked after the remap
    have := getScope_child_self st4 p ns4 cond none none
    have hc4 : (scopeChild st4 p ns4 cond none none).2 = L + 3 := by
      show st4.scopes.length = L + 3
      exact hL4
    rw [hc4] at this
    rw [this]
    simp only []
    rw [hb4]
  · -- the second sibling holds exactly the base table plus the mapping
    have h0 : L + 1 < st4.scopes.length := by omega
    rw [getScope_child_out st4 p ns4 cond none none (L + 1) h0, ← hL1]
    have hsc2 : getScope st3 st1.scopes.length
        = { parentIdx := some p
            launchFile := (getScope st1 p).launchFile
            ns := scopeNamespace st1 (getScope st1 p) ns2 false
            nodeId := none
            remaps := (getScope st1 p).remaps
            paramsRef := (getScope st1 p).paramsRef
            pending := (getScope st1 p).pending
            args := (getScope st1 p).args
            conditions := pushCond (getScope st1 p).conditions cond } := by
      rw [hL1, hst3, getScope_child_out st2 p ns3 cond none none (L + 1) (by omega)]
      have := getScope_child_self st1 p ns2 cond none none
      rw [hc2] at this
      rw [hst2, this]
      rfl
    have hperm := getScope_remap_self st3 st1.scopes.length src tgt (by omega)
    rw [hst4, hperm, hsc2]
    simp only [privateNs]
    rw [hb1]

/-- Witness for `c5_remap_isolation` on a one-scope state. -/
theorem c5_remap_isolation_witness :
    (getScope (scopeChild (scopeRemap
          (scopeChild (scopeChild (scopeChild
              { scopes := [defaultScope], nodes := [], paramArena := [[]],
                cfgParams := [], deletedParams := [] } 0 "a" .tru none none).1
            0 "b" .tru none none).1 0 "c" .tru none none).1
          (scopeChild
              { scopes := [defaultScope], nodes := [], paramArena := [[]],
                cfgParams := [], deletedParams := [] }
            0 "a" .tru none none).1.scopes.length "from" "to")
        0 "d" .tru none none).1 0).remaps
      = (getScope { scopes := [defaultScope], nodes := [], paramArena := [[]],
                    cfgParams := [], deletedParams := [] } 0).remaps :=
  (c5_remap_isolation
    { scopes := [defaultScope], nodes := [], paramArena := [[]],
      cfgParams := [], deletedParams := [] }
    0 "a" "b" "c" "d" .tru "from" "to" (by decide)).1

/-- C7: a `rosparam delete` with a conditional guard anywhere in the
ancestor chain (its own condition is not the literal `True`, or the
enclosing scope's condition list is non-empty) is a no-op, provided the
resolved name exists in the configuration's committed parameter
collection: `remove_param` returns with the whole state unchanged. -/
theorem c7_conditional_delete_noop (st : BuildState) (sid : Nat)
    (name ns : String) (condition : TagCond)
    (hex : (paramsGet st.cfgParams (rnameOf st sid name ns)).isSome = true)
    (hguard : ¬ condition = .tru ∨ ¬ (getScope st sid).conditions = []) :
    removeParam st sid name ns condition = .ok st := by
  unfold removeParam
  obtain ⟨q, hq⟩ := Option.isSome_iff_exists.mp hex
  rw [hq]
  simp only [if_pos hguard]

/-- Witness for `c7_conditional_delete_noop`: a symbolically-conditioned
delete of a previously committed parameter `/x` changes nothing. -/
theorem c7_conditional_delete_noop_witness :
    removeParam
      { scopes := [defaultScope], nodes := [], paramArena := [[]],
        cfgParams := [{ given := "x", full := "/x", ptype := some "int",
                        value := .i 1, nodeScope := false, conditions := [] }],
        deletedParams := [] } 0 "x" "" (.sym ⟨"unresolved", "f.launch"⟩)
      = .ok { scopes := [defaultScope], nodes := [], paramArena := [[]],
              cfgParams := [{ given := "x", full := "/x", ptype := some "int",
                              value := .i 1, nodeScope := false,
                              conditions := [] }],
              deletedParams := [] } :=
  c7_conditional_delete_noop
    { scopes := [defaultScope], nodes := [], paramArena := [[]],
      cfgParams := [{ given := "x", full := "/x", ptype := some "int",
                      value := .i 1, nodeScope := false, conditions := [] }],
      deletedParams := [] } 0 "x" "" (.sym ⟨"unresolved", "f.launch"⟩)
    rfl (Or.inl (by decide))

/-- Helper: one `_yaml_param` loop iteration never touches the committed
parameter collection. -/
theorem yamlParamStep_cfgParams (pns : String) (nsc : Bool) (cs : List CondV)
    (priv : Bool) (sid : Nat) (st : BuildState) (it : String × PyVal × Bool) :
    (yamlParamStep pns nsc cs priv sid st it).cfgParams = st.cfgParams := by
  unfold yamlParamStep
  by_cases hc : ((strStartsWith it.1 "/" || strStartsWith it.1 "~") || !priv) = true
  · simp only [hc, if_pos]
    rfl
  · simp only [hc, if_neg, Bool.false_eq_true, not_false_eq_true]
    rfl

/-- Helper: the `_yaml_param` loop never touches the committed parameter
collection. -/
theorem yamlParamFold_cfgParams (pns : String) (nsc : Bool) (cs : List CondV)
    (priv : Bool) (sid : Nat) (items : List (String × PyVal × Bool)) :
    ∀ st : BuildState,
    (items.foldl (yamlParamStep pns nsc cs priv sid) st).cfgParams
      = st.cfgParams := by
  induction items with
  | nil => intro st; rfl
  | cons it rest ih =>
    intro st
    simp only [List.foldl_cons]
    rw [ih, yamlParamStep_cfgParams]

/-- Helper: `_yaml_param` never touches the committed parameter
collection. -/
theorem yamlParamS_cfgParams (st : BuildState) (sid : Nat) (name : String)
    (value : PyVal) (conds : List CondV) (priv : Bool) :
    (yamlParamS st sid name value conds priv).cfgParams = st.cfgParams := by
  unfold yamlParamS
  exact yamlParamFold_cfgParams _ _ _ _ _ _ st

/-- C9: `remove_param` checks existence before consulting the conditional
guard: (1) whenever the resolved name is absent from the configuration's
committed parameter collection, it raises
`ConfigurationError("missing parameter: ...")` for every condition and
every scope condition list — a guard does not suppress the error; and
(2) `make_params` never adds to the committed collection (parameters are
staged in the scope and committed only after the whole file is walked, in
`add_launch`), so a delete targeting a parameter declared earlier in the
same file always takes this error path. -/
theorem c9_delete_checks_existence_first :
    (∀ (st : BuildState) (sid : Nat) (name ns : String) (condition : TagCond),
       paramsGet st.cfgParams (rnameOf st sid name ns) = none →
       removeParam st sid name ns condition
         = .error (.confError ("missing parameter: " ++ rnameOf st sid name ns)))
  ∧ (∀ (yload : String → Except PyErr PyVal) (st : BuildState) (sid : Nat)
       (name : String) (ptype : Option String) (value : Option String)
       (condition : TagCond) (st2 : BuildState),
       makeParams yload st sid name ptype value condition = .ok st2 →
       st2.cfgParams = st.cfgParams) := by
  constructor
  · intro st sid name ns condition h
    unfold removeParam
    rw [h]
  · intro yload st sid name ptype value condition st2 h
    unfold makeParams at h
    cases value with
    | none =>
      simp only [] at h
      split at h
      · cases h
        exact yamlParamS_cfgParams _ _ _ _ _ _
      · split at h
        · cases h; rfl
        · cases h; rfl
    | some v =>
      simp only [] at h
      cases hc : convertValue yload v ptype with
      | error e => rw [hc] at h; cases h
      | ok cv =>
        rw [hc] at h
        simp only [] at h
        split at h
        · cases h
          exact yamlParamS_cfgParams _ _ _ _ _ _
        · split at h
          · cases h; rfl
          · cases h; rfl

/-- Witness for `c9_delete_checks_existence_first`: a guarded delete of a
never-committed name errors, and a `param` tag staging `x = 1` leaves the
committed collection untouched. -/
theorem c9_delete_checks_existence_first_witness :
    removeParam
      { scopes := [defaultScope], nodes := [], paramArena := [[]],
        cfgParams := [], deletedParams := [] } 0 "y" "" (.sym ⟨"c", "f"⟩)
      = .error (.confError ("missing parameter: "
          ++ rnameOf { scopes := [defaultScope], nodes := [], paramArena := [[]],
                       cfgParams := [], deletedParams := [] } 0 "y" ""))
  ∧ ({ scopes := [defaultScope], nodes := [],
       paramArena := [[{ given := "x", full := "/x", ptype := some "int",
                         value := .i 1, nodeScope := false,
                         conditions := [] }]],
       cfgParams := [], deletedParams := [] } : BuildState).cfgParams
      = ({ scopes := [defaultScope], nodes := [], paramArena := [[]],
           cfgParams := [], deletedParams := [] } : BuildState).cfgParams :=
  ⟨c9_delete_checks_existence_first.1
     { scopes := [defaultScope], nodes := [], paramArena := [[]],
       cfgParams := [], deletedParams := [] } 0 "y" "" (.sym ⟨"c", "f"⟩) rfl,
   c9_delete_checks_existence_first.2 (fun _ => .ok PyVal.pynone)
     { scopes := [defaultScope], nodes := [], paramArena := [[]],
       cfgParams := [], deletedParams := [] } 0 "x" none (some "1") .tru
     { scopes := [defaultScope], nodes := [],
       paramArena := [[{ given := "x", full := "/x", ptype := some "int",
                         value := .i 1, nodeScope := false,
                         conditions := [] }]],
       cfgParams := [], deletedParams := [] } rfl⟩

/-- C10: the pending private-parameter staging list is never cleared by
entering a process scope: (1) the node scope created by `make_node` starts
with a copy of the caller's staging list; (2) the caller's own staging
list is unchanged; (3) every staged parameter is re-homed under the new
node's private namespace (its resolved instance name) with the instance
conditions appended, and the re-homed copies — one per staged parameter —
are appended to the shared committed list; (4) a forked child scope also
starts with a copy of the staging list, so the same staged parameter is
re-homed again by every later `make_node` in the same or a descendant
scope. -/
theorem c10_pending_not_cleared (st : BuildState) (sid : Nat)
    (tmplOwn name ns argv : String) (condition : TagCond)
    (h1 : sid < st.scopes.length)
    (h2 : (getScope st sid).paramsRef < st.paramArena.length) :
    (getScope (makeNode st sid tmplOwn name ns argv condition).1
        (makeNode st sid tmplOwn name ns argv condition).2).pending
      = (getScope st sid).pending
  ∧ (getScope (makeNode st sid tmplOwn name ns argv condition).1 sid).pending
      = (getScope st sid).pending
  ∧ arenaGet (makeNode st sid tmplOwn name ns argv condition).1
        (getScope st sid).paramsRef
      = arenaGet st (getScope st sid).paramsRef
        ++ (getScope st sid).pending.map
            (rehomeParam
              (rosResolve (if name = "" then tmplOwn else name)
                (scopeNamespace st (getScope st sid) ns false)
                (privateNs st (getScope st sid)))
              (pushCond (getScope st sid).conditions condition))
  ∧ (getScope (scopeChild st sid ns condition none none).1
        (scopeChild st sid ns condition none none).2).pending
      = (getScope st sid).pending := by
  refine ⟨?_, ?_, ?_, ?_⟩
  · show ((st.scopes ++ [_]).getD st.scopes.length defaultScope).pending
      = (getScope st sid).pending
    rw [listGetD_append_self]
  · show ((st.scopes ++ [_]).getD sid defaultScope).pending
      = (getScope st sid).pending
    rw [listGetD_append_lt _ _ _ _ h1]
    rfl
  · show (st.paramArena.set (getScope st sid).paramsRef
        (st.paramArena.getD (getScope st sid).paramsRef []
          ++ (getScope st sid).pending.map _)).getD
        (getScope st sid).paramsRef []
      = arenaGet st (getScope st sid).paramsRef
        ++ (getScope st sid).pending.map _
    rw [listGetD_set_self _ _ _ _ h2]
    rfl
  · rw [getScope_child_self]

/-- Witness for `c10_pending_not_cleared`: a scope with one staged private
parameter. -/
theorem c10_pending_not_cleared_witness :
    (getScope (makeNode
        { scopes := [{ defaultScope with
            pending := [{ given := "~x", full := "/x", ptype := some "int",
                          value := .i 1, nodeScope := false,
                          conditions := [] }] }],
          nodes := [], paramArena := [[]], cfgParams := [],
          deletedParams := [] } 0 "talker" "n" "" "" .tru).1
      (makeNode
        { scopes := [{ defaultScope with
            pending := [{ given := "~x", full := "/x", ptype := some "int",
                          value := .i 1, nodeScope := false,
                          conditions := [] }] }],
          nodes := [], paramArena := [[]], cfgParams := [],
          deletedParams := [] } 0 "talker" "n" "" "" .tru).2).pending
    = (getScope
        { scopes := [{ defaultScope with
            pending := [{ given := "~x", full := "/x", ptype := some "int",
                          value := .i 1, nodeScope := false,
                          conditions := [] }] }],
          nodes := [], paramArena := [[]], cfgParams := [],
          deletedParams := [] } 0).pending :=
  (c10_pending_not_cleared
    { scopes := [{ defaultScope with
        pending := [{ given := "~x", full := "/x", ptype := some "int",
                      value := .i 1, nodeScope := false,
                      conditions := [] }] }],
      nodes := [], paramArena := [[]], cfgParams := [],
      deletedParams := [] } 0 "talker" "n" "" "" .tru
    (by decide) (by decide)).1

end Haros
